import Mathlib

/-!
Shallow embedding of the ETA status dashboard pipeline (src/app.py).

The script loads a spreadsheet into a dataframe `df`, builds a time view
`df_time` by parsing `received_on` (`pd.to_datetime(..., errors="coerce")`
followed by `dropna`) and deriving `date` and `month` columns, slices both
views by the current user unless the role is admin, applies the sidebar
multiselect filters to both views with `apply_filters`, applies the selected
date range to `df_time` only, and finally computes the aggregations
(KPI metrics, `daily_7`, `monthly_trend`, `user_summary`, `daily_user`,
`geo_summary`, `event_summary`).

Rows are modelled with every data column optional (a pandas cell may be NaN).
The external timestamp parser is abstracted: `received_on` holds the parse
result directly, `none` standing for a missing or unparseable cell, and a
parsed timestamp carries the derived calendar date (`dt.date`, as an integer
day index) and month label (`to_period("M")`, as an integer month index).
-/

/-- Parsed `received_on` value together with its derived columns:
`date` is the calendar date (`dt.date`) and `month` the year-month label
(`to_period("M")`). Both are encoded as integers ordered chronologically. -/
structure Timestamp where
  date : Int
  month : Int
deriving DecidableEq, Repr

/-- One spreadsheet row after column-name normalization.  Every cell may be
missing (pandas NaN), encoded as `none`.  `received_on` holds the result of
`pd.to_datetime(..., errors="coerce")`: `none` when the cell is missing or
does not parse as a timestamp. -/
structure Row where
  username : Option String
  region_name : Option String
  woreda_name : Option String
  event_organizer_name : Option String
  event_id : Option String
  received_on : Option Timestamp
deriving DecidableEq, Repr

/-- The `(username, role)` pair stored in the session state. -/
structure Identity where
  username : String
  role : String
deriving DecidableEq, Repr

/-- The sidebar filter selection: one (possibly empty) list of selected
values per multiselect widget (src/app.py lines 111-129). -/
structure Selection where
  region_filter : List String
  woreda_filter : List String
  organizer_filter : List String
  event_filter : List String
  username_filter : List String
deriving DecidableEq, Repr

/-- Pandas `Series.isin` on a single cell: a missing value (NaN) is never
in the list, a present value is tested by membership. -/
def isinOpt (v : Option String) (l : List String) : Bool :=
  match v with
  | some x => l.contains x
  | none => false

/-- A row of `df_time`: the original row plus the derived `date` and `month`
columns (src/app.py lines 95-96). -/
structure TimeRow where
  row : Row
  date : Int
  month : Int
deriving DecidableEq, Repr

/-- Construction of `df_time` (src/app.py lines 87-96): copy `df`, coerce
`received_on` (already reflected in the field), drop rows whose `received_on`
is NaT, and derive the `date` and `month` columns. -/
def toTime (df : List Row) : List TimeRow :=
  df.filterMap (fun r => r.received_on.map (fun t => ⟨r, t.date, t.month⟩))

/-- Access-control slice on `df` (src/app.py lines 101-102): unless the role
is admin, keep only rows whose `username` equals the current user (a NaN
username compares unequal, hence is dropped). -/
def accessControl (ident : Identity) (df : List Row) : List Row :=
  if ident.role ≠ "admin" then
    df.filter (fun r => r.username == some ident.username)
  else df

/-- Access-control slice on `df_time` (src/app.py line 103), same comparison
applied to the underlying row. -/
def accessControlTime (ident : Identity) (dft : List TimeRow) : List TimeRow :=
  if ident.role ≠ "admin" then
    dft.filter (fun t => t.row.username == some ident.username)
  else dft

/-- `apply_filters` (src/app.py lines 132-143), written once over any table
whose rows project to a `Row` — the script applies the identical body to both
`df` and `df_time`.  Each nonempty multiselect list slices the table by
`isin`; an empty list leaves the table untouched. -/
def applyFiltersG (proj : α → Row) (s : Selection) (data : List α) : List α :=
  let d1 := if s.region_filter ≠ [] then
      data.filter (fun r => isinOpt (proj r).region_name s.region_filter)
    else data
  let d2 := if s.woreda_filter ≠ [] then
      d1.filter (fun r => isinOpt (proj r).woreda_name s.woreda_filter)
    else d1
  let d3 := if s.organizer_filter ≠ [] then
      d2.filter (fun r => isinOpt (proj r).event_organizer_name s.organizer_filter)
    else d2
  let d4 := if s.event_filter ≠ [] then
      d3.filter (fun r => isinOpt (proj r).event_id s.event_filter)
    else d3
  if s.username_filter ≠ [] then
    d4.filter (fun r => isinOpt (proj r).username s.username_filter)
  else d4

/-- `apply_filters` at the `df` call site (src/app.py line 145). -/
def apply_filters (s : Selection) (data : List Row) : List Row :=
  applyFiltersG id s data

/-- `apply_filters` at the `df_time` call site (src/app.py line 146). -/
def apply_filters_time (s : Selection) (data : List TimeRow) : List TimeRow :=
  applyFiltersG TimeRow.row s data

/-- The date-range slice on `df_time` (src/app.py lines 163-169): when the
widget returns a `(start, end)` pair, keep rows with
`start ≤ date ∧ date ≤ end`; otherwise leave the view unchanged. -/
def dateSlice (dr : Option (Int × Int)) (dft : List TimeRow) : List TimeRow :=
  match dr with
  | some (s, e) => dft.filter (fun t => decide (s ≤ t.date) && decide (t.date ≤ e))
  | none => dft

/-- The full filtering pipeline in program order (src/app.py lines 87-169):
returns the pair of views `(df, df_time)` used by every aggregation below. -/
def pipeline (ident : Identity) (s : Selection) (dr : Option (Int × Int))
    (df0 : List Row) : List Row × List TimeRow :=
  let df := accessControl ident df0
  let dft := accessControlTime ident (toTime df0)
  let df := apply_filters s df
  let dft := apply_filters_time s dft
  let dft := dateSlice dr dft
  (df, dft)

/-!
Pandas `groupby(...).size()` with its defaults `sort=True, dropna=True`:
rows whose grouping key is missing are dropped, the remaining rows are
grouped, and the groups are listed by key in ascending order.
-/

/-- Insert a key into a strictly sorted list of keys, skipping duplicates. -/
def insertKey [LinearOrder K] (x : K) : List K → List K
  | [] => [x]
  | y :: ys =>
    if x < y then x :: y :: ys
    else if x = y then y :: ys
    else y :: insertKey x ys

/-- The distinct keys of a list, in ascending order. -/
def sortedKeys [LinearOrder K] (l : List K) : List K :=
  l.foldr insertKey []

/-- `groupby(key).size().reset_index()` with pandas defaults: drop rows with
a missing key (`dropna=True`), list distinct keys in ascending order
(`sort=True`), and pair each with the number of rows carrying it. -/
def groupBySize [LinearOrder K] (f : α → Option K) (l : List α) : List (K × Nat) :=
  (sortedKeys (l.filterMap f)).map
    (fun key => (key, l.countP (fun r => decide (f r = some key))))

/-- Insert one `(key, count)` pair into a list sorted by count descending:
`sort_values("records", ascending=False)`. -/
def insertDesc (x : K × Nat) : List (K × Nat) → List (K × Nat)
  | [] => [x]
  | y :: ys => if y.2 < x.2 then x :: y :: ys else y :: insertDesc x ys

/-- Sort `(key, count)` pairs by count descending. -/
def sortDesc (l : List (K × Nat)) : List (K × Nat) :=
  l.foldr insertDesc []

/-- Sum of the `records` column of a grouped summary. -/
def sumCounts (l : List (K × Nat)) : Nat :=
  (l.map Prod.snd).sum

/-- KPI "Total records" (src/app.py line 179): `len(df)`. -/
def countTotal (df : List Row) : Nat := df.length

/-- KPI "Today" (src/app.py line 184): rows of `df_time` whose `date` equals
today. -/
def countToday (today : Int) (dft : List TimeRow) : Nat :=
  (dft.filter (fun t => decide (t.date = today))).length

/-- KPI "This month" (src/app.py line 185): rows of `df_time` whose `month`
equals the current year-month label. -/
def countThisMonth (thisMonth : Int) (dft : List TimeRow) : Nat :=
  (dft.filter (fun t => decide (t.month = thisMonth))).length

/-- `daily_7` (src/app.py lines 194-201): restrict `df_time` to rows with
`date >= today - 6` and group by `date`. -/
def daily_7 (today : Int) (dft : List TimeRow) : List (Int × Nat) :=
  groupBySize (fun t => some t.date)
    (dft.filter (fun t => decide (today - 6 ≤ t.date)))

/-- `monthly_trend` (src/app.py lines 207-211): group `df_time` by `month`. -/
def monthly_trend (dft : List TimeRow) : List (Int × Nat) :=
  groupBySize (fun t => some t.month) dft

/-- `user_summary` (src/app.py lines 230-235): group `df` by `username`,
sorted by count descending. -/
def user_summary (df : List Row) : List (String × Nat) :=
  sortDesc (groupBySize (fun r => r.username) df)

/-- `daily_user` (src/app.py lines 237-241): group `df_time` by
`(date, username)`; a row with a missing username has a missing compound key
and is dropped. -/
def daily_user (dft : List TimeRow) : List (Lex (Int × String) × Nat) :=
  groupBySize (fun t => t.row.username.map (fun u => toLex (t.date, u))) dft

/-- `geo_summary` (src/app.py lines 260-264): group `df` by
`(region_name, woreda_name)`; a row missing either key is dropped. -/
def geo_summary (df : List Row) : List (Lex (String × String) × Nat) :=
  groupBySize
    (fun r => match r.region_name, r.woreda_name with
      | some a, some b => some (toLex (a, b))
      | _, _ => none) df

/-- `event_summary` (src/app.py lines 266-271): group `df` by `event_id`,
sorted by count descending. -/
def event_summary (df : List Row) : List (String × Nat) :=
  sortDesc (groupBySize (fun r => r.event_id) df)

/-- The conjunctive predicate the Filter Engine implements: for each
dimension, an empty selection imposes no constraint and a nonempty one keeps
a row exactly when its value is in the selected set. -/
def matchesSel (s : Selection) (r : Row) : Bool :=
  (s.region_filter.isEmpty || isinOpt r.region_name s.region_filter) &&
  (s.woreda_filter.isEmpty || isinOpt r.woreda_name s.woreda_filter) &&
  (s.organizer_filter.isEmpty || isinOpt r.event_organizer_name s.organizer_filter) &&
  (s.event_filter.isEmpty || isinOpt r.event_id s.event_filter) &&
  (s.username_filter.isEmpty || isinOpt r.username s.username_filter)

/-- Sample rows for concrete witnesses, following the example of spec sect. 8. -/
def sampleRow1 : Row :=
  ⟨some "alice", some "R1", some "W1", some "OrgA", some "E1", some ⟨5, 1⟩⟩

/-- Second sample row. -/
def sampleRow2 : Row :=
  ⟨some "bob", some "R1", some "W2", some "OrgA", some "E2", some ⟨5, 1⟩⟩

/-- Third sample row. -/
def sampleRow3 : Row :=
  ⟨some "alice", some "R2", some "W3", some "OrgB", some "E1", some ⟨32, 2⟩⟩

/-- Row whose `received_on` cell does not parse and whose `username` cell is
missing. -/
def sampleRowNoUser : Row :=
  ⟨none, some "R1", some "W1", some "OrgA", some "E1", none⟩

/-- Row with a missing `event_id` cell. -/
def sampleRowNoEvent : Row :=
  ⟨some "carol", some "R1", some "W1", some "OrgA", none, some ⟨5, 1⟩⟩

/-- Sample dataset. -/
def sampleDf : List Row := [sampleRow1, sampleRow2, sampleRow3]

/-- A `df_time` row carrying date 8. -/
def sampleTimeRow8 : TimeRow := ⟨sampleRow1, 8, 0⟩

/-- Selection with every multiselect empty. -/
def sampleSelEmpty : Selection := ⟨[], [], [], [], []⟩

/-- Selection keeping only region R1. -/
def sampleSelR1 : Selection := ⟨["R1"], [], [], [], []⟩

lemma filter_stage (lf : List String) (p : α → Bool) (data : List α) :
    (if lf ≠ [] then data.filter p else data)
      = data.filter (fun r => lf.isEmpty || p r) := by
  cases lf with
  | nil => simp
  | cons a l => simp

lemma applyFiltersG_eq_filter (proj : α → Row) (s : Selection) (data : List α) :
    applyFiltersG proj s data = data.filter (fun r => matchesSel s (proj r)) := by
  unfold applyFiltersG
  rw [filter_stage, filter_stage, filter_stage, filter_stage, filter_stage,
      List.filter_filter, List.filter_filter, List.filter_filter, List.filter_filter]
  congr 1
  funext r
  simp only [matchesSel]
  generalize (s.region_filter.isEmpty || isinOpt (proj r).region_name s.region_filter) = b1
  generalize (s.woreda_filter.isEmpty || isinOpt (proj r).woreda_name s.woreda_filter) = b2
  generalize (s.organizer_filter.isEmpty
      || isinOpt (proj r).event_organizer_name s.organizer_filter) = b3
  generalize (s.event_filter.isEmpty || isinOpt (proj r).event_id s.event_filter) = b4
  generalize (s.username_filter.isEmpty || isinOpt (proj r).username s.username_filter) = b5
  revert b1 b2 b3 b4 b5
  decide

lemma toTime_filter (p : Row → Bool) (df : List Row) :
    toTime (df.filter p) = (toTime df).filter (fun t => p t.row) := by
  induction df with
  | nil => rfl
  | cons r df ih =>
    cases hp : p r <;> cases h : r.received_on <;>
      simp [toTime, List.filter_cons, List.filterMap_cons, hp, h] <;>
      simpa [toTime] using ih

lemma accessControlTime_toTime (ident : Identity) (df : List Row) :
    accessControlTime ident (toTime df) = toTime (accessControl ident df) := by
  unfold accessControl accessControlTime
  split
  · rw [toTime_filter]
  · rfl

lemma apply_filters_time_toTime (s : Selection) (df : List Row) :
    apply_filters_time s (toTime df) = toTime (apply_filters s df) := by
  rw [apply_filters_time, apply_filters, applyFiltersG_eq_filter,
      applyFiltersG_eq_filter, toTime_filter]
  rfl

lemma mem_insertKey [LinearOrder K] (a x : K) (l : List K) :
    a ∈ insertKey x l ↔ a = x ∨ a ∈ l := by
  induction l with
  | nil => simp [insertKey]
  | cons y ys ih =>
    by_cases h1 : x < y
    · simp [insertKey, h1]
    · by_cases h2 : x = y
      · subst h2
        simp [insertKey, h1]
      · simp [insertKey, h1, h2, ih]
        tauto

lemma sorted_insertKey [LinearOrder K] (x : K) (l : List K)
    (h : List.Sorted (· < ·) l) : List.Sorted (· < ·) (insertKey x l) := by
  induction l with
  | nil => simp [insertKey]
  | cons y ys ih =>
    rw [List.sorted_cons] at h
    by_cases h1 : x < y
    · rw [insertKey, if_pos h1]
      rw [List.sorted_cons]
      refine ⟨?_, List.sorted_cons.mpr h⟩
      intro b hb
      rcases List.mem_cons.mp hb with hb | hb
      · exact hb ▸ h1
      · exact lt_trans h1 (h.1 b hb)
    · by_cases h2 : x = y
      · rw [insertKey, if_neg h1, if_pos h2]
        exact List.sorted_cons.mpr h
      · rw [insertKey, if_neg h1, if_neg h2]
        rw [List.sorted_cons]
        refine ⟨?_, ih h.2⟩
        intro b hb
        rcases (mem_insertKey b x ys).mp hb with hb | hb
        · subst hb
          exact lt_of_le_of_ne (le_of_not_lt h1) (Ne.symm h2)
        · exact h.1 b hb

lemma sorted_sortedKeys [LinearOrder K] (l : List K) :
    List.Sorted (· < ·) (sortedKeys l) := by
  induction l with
  | nil => simp [sortedKeys]
  | cons x xs ih => exact sorted_insertKey x (sortedKeys xs) ih

lemma mem_sortedKeys [LinearOrder K] (a : K) (l : List K) :
    a ∈ sortedKeys l ↔ a ∈ l := by
  induction l with
  | nil => simp [sortedKeys]
  | cons x xs ih =>
    have hstep : sortedKeys (x :: xs) = insertKey x (sortedKeys xs) := rfl
    rw [hstep, mem_insertKey, ih, List.mem_cons]

lemma nodup_sortedKeys [LinearOrder K] (l : List K) :
    (sortedKeys l).Nodup :=
  (sorted_sortedKeys l).nodup

lemma mem_groupBySize [LinearOrder K] (f : α → Option K) (l : List α)
    (key : K) (n : Nat) :
    (key, n) ∈ groupBySize f l ↔
      (∃ r ∈ l, f r = some key) ∧
        n = l.countP (fun r => decide (f r = some key)) := by
  rw [groupBySize]
  constructor
  · intro h
    rcases List.mem_map.mp h with ⟨k, hk, hkey⟩
    obtain ⟨rfl, rfl⟩ : k = key ∧ (l.countP (fun r => decide (f r = some k))) = n := by
      constructor
      · exact congrArg Prod.fst hkey
      · exact congrArg Prod.snd hkey
    refine ⟨?_, rfl⟩
    rcases List.mem_filterMap.mp ((mem_sortedKeys k _).mp hk) with ⟨r, hr, hfr⟩
    exact ⟨r, hr, hfr⟩
  · rintro ⟨⟨r, hr, hfr⟩, rfl⟩
    refine List.mem_map.mpr ⟨key, ?_, rfl⟩
    exact (mem_sortedKeys key _).mpr (List.mem_filterMap.mpr ⟨r, hr, hfr⟩)

lemma groupBySize_count_pos [LinearOrder K] (f : α → Option K) (l : List α)
    (key : K) (n : Nat) (h : (key, n) ∈ groupBySize f l) : 0 < n := by
  rcases (mem_groupBySize f l key n).mp h with ⟨⟨r, hr, hfr⟩, rfl⟩
  exact List.countP_pos_iff.mpr ⟨r, hr, by simp [hfr]⟩

lemma groupBySize_complete [LinearOrder K] (f : α → Option K) (l : List α)
    (r : α) (key : K) (hr : r ∈ l) (hfr : f r = some key) :
    (key, l.countP (fun x => decide (f x = some key))) ∈ groupBySize f l :=
  (mem_groupBySize f l key _).mpr ⟨⟨r, hr, hfr⟩, rfl⟩

lemma groupBySize_sorted [LinearOrder K] (f : α → Option K) (l : List α) :
    List.Pairwise (fun p q : K × Nat => p.1 < q.1) (groupBySize f l) := by
  rw [groupBySize]
  exact List.Pairwise.map _ (fun a b h => h) (sorted_sortedKeys _)

lemma countP_eq_one_of_nodup [DecidableEq K] (v : K) (keys : List K)
    (hnd : keys.Nodup) (hv : v ∈ keys) :
    keys.countP (fun key => decide (v = key)) = 1 := by
  induction keys with
  | nil => cases hv
  | cons y ys ih =>
    rcases List.mem_cons.mp hv with rfl | hv
    · rw [List.countP_cons]
      have h0 : ys.countP (fun key => decide (v = key)) = 0 := by
        rw [List.countP_eq_zero]
        intro k hk hvk
        rcases of_decide_eq_true hvk with rfl
        exact (List.nodup_cons.mp hnd).1 hk
      simp [h0]
    · rw [List.countP_cons]
      have hne : ¬(v = y) := fun h => (List.nodup_cons.mp hnd).1 (h ▸ hv)
      simp [hne, ih (List.nodup_cons.mp hnd).2 hv]

lemma countP_keys_indicator [DecidableEq K] (f : α → Option K) (r : α)
    (keys : List K) (hnd : keys.Nodup)
    (hcov : ∀ v, f r = some v → v ∈ keys) :
    keys.countP (fun key => decide (f r = some key))
      = if (f r).isSome then 1 else 0 := by
  cases hfr : f r with
  | none => simp [List.countP_eq_zero]
  | some v =>
    simp only [Option.isSome_some, if_true]
    have hfun : (fun key : K => decide (some v = some key))
        = fun key => decide (v = key) := by
      funext key
      simp
    rw [hfun]
    exact countP_eq_one_of_nodup v keys hnd (hcov v hfr)

lemma sum_map_add_distrib (g h : K → Nat) (keys : List K) :
    (keys.map (fun k => g k + h k)).sum = (keys.map g).sum + (keys.map h).sum := by
  induction keys with
  | nil => rfl
  | cons y ys ih =>
    simp [ih]
    omega

lemma sum_map_boole (p : K → Bool) (keys : List K) :
    (keys.map (fun k => if p k then 1 else 0)).sum = keys.countP p := by
  induction keys with
  | nil => rfl
  | cons y ys ih =>
    rw [List.map_cons, List.sum_cons, List.countP_cons, ih, Nat.add_comm]

lemma sum_map_countP [DecidableEq K] (f : α → Option K) (l : List α)
    (keys : List K) (hnd : keys.Nodup)
    (hcov : ∀ r ∈ l, ∀ v, f r = some v → v ∈ keys) :
    (keys.map (fun key => l.countP (fun r => decide (f r = some key)))).sum
      = l.countP (fun r => (f r).isSome) := by
  induction l with
  | nil => simp
  | cons r l ih =>
    have hmap : (keys.map
        (fun key => (r :: l).countP (fun x => decide (f x = some key))))
        = keys.map (fun key => l.countP (fun x => decide (f x = some key))
            + if decide (f r = some key) then 1 else 0) := by
      simp only [List.countP_cons]
    rw [hmap,
      sum_map_add_distrib (fun key => l.countP (fun x => decide (f x = some key)))
        (fun key => if decide (f r = some key) then 1 else 0) keys,
      ih (fun x hx => hcov x (List.mem_cons_of_mem r hx)),
      sum_map_boole (fun key => decide (f r = some key)) keys,
      countP_keys_indicator f r keys hnd (hcov r (List.mem_cons_self r l)),
      List.countP_cons]

lemma sumCounts_groupBySize [LinearOrder K] (f : α → Option K) (l : List α) :
    sumCounts (groupBySize f l) = l.countP (fun r => (f r).isSome) := by
  rw [sumCounts, groupBySize, List.map_map]
  have hmap : (Prod.snd ∘ fun key : K =>
      (key, l.countP (fun r => decide (f r = some key))))
      = fun key => l.countP (fun r => decide (f r = some key)) := rfl
  rw [hmap]
  apply sum_map_countP f l _ (nodup_sortedKeys _)
  intro r hr v hv
  exact (mem_sortedKeys v _).mpr (List.mem_filterMap.mpr ⟨r, hr, hv⟩)

lemma perm_insertDesc (x : K × Nat) (l : List (K × Nat)) :
    (insertDesc x l).Perm (x :: l) := by
  induction l with
  | nil => exact List.Perm.refl _
  | cons y ys ih =>
    rw [insertDesc]
    by_cases h : y.2 < x.2
    · rw [if_pos h]
    · rw [if_neg h]
      exact (ih.cons y).trans (List.Perm.swap x y ys)

lemma perm_sortDesc (l : List (K × Nat)) : (sortDesc l).Perm l := by
  induction l with
  | nil => exact List.Perm.refl _
  | cons y ys ih => exact (perm_insertDesc y (sortDesc ys)).trans (ih.cons y)

lemma sumCounts_sortDesc (l : List (K × Nat)) :
    sumCounts (sortDesc l) = sumCounts l :=
  ((perm_sortDesc l).map Prod.snd).sum_eq

/-- C1: for every Dataset and every Identity whose role is not admin, every
row of the access-control-filtered dataset (and of the filtered time view)
has `username` equal to the identity's username; for an admin Identity the
access-control filter returns the Dataset unchanged. -/
theorem C1_access_control (df : List Row) (dft : List TimeRow) (ident : Identity) :
    (ident.role ≠ "admin" →
      (∀ r ∈ accessControl ident df, r.username = some ident.username) ∧
      (∀ t ∈ accessControlTime ident dft, t.row.username = some ident.username)) ∧
    (ident.role = "admin" →
      accessControl ident df = df ∧ accessControlTime ident dft = dft) := by
  constructor
  · intro hrole
    constructor
    · intro r hr
      rw [accessControl, if_pos hrole] at hr
      simpa using List.of_mem_filter hr
    · intro t ht
      rw [accessControlTime, if_pos hrole] at ht
      simpa using List.of_mem_filter ht
  · intro hrole
    exact ⟨by rw [accessControl, if_neg (by simp [hrole])],
           by rw [accessControlTime, if_neg (by simp [hrole])]⟩

/-- Witness for C1 at a concrete dataset: a standard user sees only rows
carrying their own username, and an admin sees the dataset unchanged. -/
theorem C1_access_control_witness :
    (∀ r ∈ accessControl ⟨"alice", "standard"⟩ sampleDf,
      r.username = some "alice") ∧
    accessControl ⟨"boss", "admin"⟩ sampleDf = sampleDf :=
  ⟨fun r hr =>
      ((C1_access_control sampleDf [] ⟨"alice", "standard"⟩).1 (by decide)).1 r hr,
    ((C1_access_control sampleDf [] ⟨"boss", "admin"⟩).2 rfl).1⟩

/-- C2: the Filter Engine keeps exactly the rows satisfying every non-empty
predicate of the Selection (set-membership within a dimension, conjunction
across dimensions, empty predicates unconstraining), and when every
predicate is empty it returns the Dataset unchanged. -/
theorem C2_filter_engine (s : Selection) (data : List Row) (r : Row) :
    apply_filters s data = data.filter (fun x => matchesSel s x) ∧
    (r ∈ apply_filters s data ↔ r ∈ data ∧ matchesSel s r = true) ∧
    (s.region_filter = [] → s.woreda_filter = [] → s.organizer_filter = [] →
      s.event_filter = [] → s.username_filter = [] →
      apply_filters s data = data) := by
  have h : apply_filters s data = data.filter (fun x => matchesSel s x) :=
    applyFiltersG_eq_filter id s data
  refine ⟨h, ?_, ?_⟩
  · rw [h, List.mem_filter]
  · intro h1 h2 h3 h4 h5
    rw [h]
    have hall : (fun x => matchesSel s x) = fun _ : Row => true := by
      funext x
      simp [matchesSel, h1, h2, h3, h4, h5]
    rw [hall, List.filter_true]

/-- Witness for C2 at a concrete dataset: a region predicate keeps exactly
the matching rows, and the all-empty Selection is the identity. -/
theorem C2_filter_engine_witness :
    apply_filters sampleSelR1 sampleDf = [sampleRow1, sampleRow2] ∧
    apply_filters sampleSelEmpty sampleDf = sampleDf := by
  constructor
  · rw [(C2_filter_engine sampleSelR1 sampleDf sampleRow1).1]
    decide
  · exact (C2_filter_engine sampleSelEmpty sampleDf sampleRow1).2.2
      rfl rfl rfl rfl rfl

/-- C8: the Filter Engine is idempotent, on both the plain view and the
time view. -/
theorem C8_filter_idempotent (s : Selection) (data : List Row)
    (dft : List TimeRow) :
    apply_filters s (apply_filters s data) = apply_filters s data ∧
    apply_filters_time s (apply_filters_time s dft) = apply_filters_time s dft := by
  constructor
  · simp only [apply_filters, applyFiltersG_eq_filter, List.filter_filter,
      Bool.and_self]
  · simp only [apply_filters_time, applyFiltersG_eq_filter, List.filter_filter,
      Bool.and_self]

/-- C3: the date-range predicate is inclusive on both ends and applies only
to the date view; the non-time view is unchanged by any choice of date
range; both views receive the same non-date predicates. -/
theorem C3_dual_view (ident : Identity) (s : Selection)
    (dr dr' : Option (Int × Int)) (df0 : List Row) (sd ed : Int)
    (dft : List TimeRow) (t : TimeRow) :
    (t ∈ dateSlice (some (sd, ed)) dft ↔ t ∈ dft ∧ sd ≤ t.date ∧ t.date ≤ ed) ∧
    (pipeline ident s dr df0).1 = (pipeline ident s dr' df0).1 ∧
    (pipeline ident s dr df0).1 = apply_filters s (accessControl ident df0) ∧
    (pipeline ident s dr df0).2
      = dateSlice dr (apply_filters_time s (accessControlTime ident (toTime df0))) := by
  refine ⟨?_, rfl, rfl, rfl⟩
  rw [dateSlice, List.mem_filter]
  simp [and_assoc]

/-- C7: a date range whose start exceeds its end yields an empty
date-filtered view, and the non-date-filtered view is unaffected. -/
theorem C7_reversed_range (ident : Identity) (s : Selection) (df0 : List Row)
    (sd ed : Int) (h : ed < sd) :
    (pipeline ident s (some (sd, ed)) df0).2 = [] ∧
    (pipeline ident s (some (sd, ed)) df0).1 = (pipeline ident s none df0).1 := by
  refine ⟨?_, rfl⟩
  show dateSlice (some (sd, ed)) _ = []
  rw [dateSlice, List.filter_eq_nil_iff]
  intro t ht
  simp only [Bool.and_eq_true, decide_eq_true_eq, not_and]
  intro h1 h2
  omega

/-- Witness for C7: the reversed range (10, 3) empties the date view of the
sample pipeline and leaves the plain view as with no range at all. -/
theorem C7_reversed_range_witness :
    (pipeline ⟨"boss", "admin"⟩ sampleSelEmpty (some (10, 3)) sampleDf).2 = [] ∧
    (pipeline ⟨"boss", "admin"⟩ sampleSelEmpty (some (10, 3)) sampleDf).1
      = (pipeline ⟨"boss", "admin"⟩ sampleSelEmpty none sampleDf).1 :=
  C7_reversed_range ⟨"boss", "admin"⟩ sampleSelEmpty sampleDf 10 3 (by decide)

/-- C9: the date-filtered view never has more rows than the non-date view
built from the same Dataset with the same non-date predicates. -/
theorem C9_date_monotone (ident : Identity) (s : Selection)
    (dr : Option (Int × Int)) (df0 : List Row) :
    (pipeline ident s dr df0).2.length ≤ (pipeline ident s dr df0).1.length := by
  show (dateSlice dr (apply_filters_time s (accessControlTime ident (toTime df0)))).length
    ≤ (apply_filters s (accessControl ident df0)).length
  rw [accessControlTime_toTime, apply_filters_time_toTime]
  have h1 : ∀ dft : List TimeRow, (dateSlice dr dft).length ≤ dft.length := by
    intro dft
    cases dr with
    | none => exact le_refl _
    | some p =>
      obtain ⟨a, b⟩ := p
      exact List.length_filter_le _ _
  exact le_trans (h1 _) (List.length_filterMap_le _ _)

/-- Counterexample to C4 as stated: a record whose `received_on` does not
parse but whose `username` cell is also missing is counted by `countTotal`
yet appears in no `perUserSummary` group, so it is not "counted in
perUserSummary". -/
theorem C4_invalid_counterexample :
    sampleRowNoUser.received_on = none ∧
    countTotal [sampleRowNoUser] = 1 ∧
    user_summary [sampleRowNoUser] = [] := by decide

/-- C4 (amended): a record with unparseable `received_on` is absent from the
date-derived view, hence from dailyTrend, monthlyTrend, countToday and
countThisMonth; it is always counted by countTotal, and it is counted in
perUserSummary, eventSummary and geoSummary exactly when the respective
grouping keys are present. -/
theorem C4_invalid_rows (df : List Row) (r : Row) (today thisMonth : Int)
    (h : r.received_on = none) :
    toTime (r :: df) = toTime df ∧
    (∀ t ∈ toTime (r :: df), t.row.received_on ≠ none) ∧
    daily_7 today (toTime (r :: df)) = daily_7 today (toTime df) ∧
    monthly_trend (toTime (r :: df)) = monthly_trend (toTime df) ∧
    countToday today (toTime (r :: df)) = countToday today (toTime df) ∧
    countThisMonth thisMonth (toTime (r :: df))
      = countThisMonth thisMonth (toTime df) ∧
    countTotal (r :: df) = countTotal df + 1 ∧
    sumCounts (user_summary (r :: df))
      = sumCounts (user_summary df) + (if r.username.isSome then 1 else 0) ∧
    sumCounts (event_summary (r :: df))
      = sumCounts (event_summary df) + (if r.event_id.isSome then 1 else 0) ∧
    sumCounts (geo_summary (r :: df))
      = sumCounts (geo_summary df)
        + (if r.region_name.isSome && r.woreda_name.isSome then 1 else 0) := by
  have htt : toTime (r :: df) = toTime df := by
    simp [toTime, List.filterMap_cons, h]
  have hu : ∀ d : List Row,
      sumCounts (user_summary d) = d.countP (fun x => x.username.isSome) := by
    intro d
    rw [user_summary, sumCounts_sortDesc, sumCounts_groupBySize]
  have he : ∀ d : List Row,
      sumCounts (event_summary d) = d.countP (fun x => x.event_id.isSome) := by
    intro d
    rw [event_summary, sumCounts_sortDesc, sumCounts_groupBySize]
  have hg : ∀ d : List Row,
      sumCounts (geo_summary d)
        = d.countP (fun x => x.region_name.isSome && x.woreda_name.isSome) := by
    intro d
    rw [geo_summary, sumCounts_groupBySize]
    apply List.countP_congr
    intro a ha
    cases h1 : a.region_name <;> cases h2 : a.woreda_name <;> simp
  refine ⟨htt, ?_, by rw [htt], by rw [htt], by rw [htt], by rw [htt], rfl,
    ?_, ?_, ?_⟩
  · intro t ht
    rcases List.mem_filterMap.mp ht with ⟨a, ha, hfa⟩
    cases h2 : a.received_on with
    | none =>
      rw [h2] at hfa
      cases hfa
    | some ts =>
      rw [h2] at hfa
      cases hfa
      simp [h2]
  · rw [hu, hu, List.countP_cons]
  · rw [he, he, List.countP_cons]
  · rw [hg, hg, List.countP_cons]

/-- Witness for C4 (amended) at a concrete record with unparseable
`received_on` and missing `username`. -/
theorem C4_invalid_rows_witness :
    sampleRowNoUser.received_on = none ∧
    toTime (sampleRowNoUser :: sampleDf) = toTime sampleDf ∧
    countTotal (sampleRowNoUser :: sampleDf) = countTotal sampleDf + 1 :=
  ⟨rfl, (C4_invalid_rows sampleDf sampleRowNoUser 5 1 rfl).1,
    (C4_invalid_rows sampleDf sampleRowNoUser 5 1 rfl).2.2.2.2.2.2.1⟩

/-- Counterexample to C5 as stated: a view with one row whose `event_id` is
missing has countTotal 1 while the eventSummary counts sum to 0. -/
theorem C5_event_counterexample :
    sampleRowNoEvent.event_id = none ∧
    countTotal [sampleRowNoEvent] = 1 ∧
    sumCounts (event_summary [sampleRowNoEvent]) = 0 := by decide

/-- C5 (amended): the eventSummary counts sum to the number of rows of the
view carrying a present `event_id`; in particular they sum to countTotal
whenever every row of the view has a present `event_id`. -/
theorem C5_event_sum (df : List Row) :
    sumCounts (event_summary df) = df.countP (fun r => r.event_id.isSome) ∧
    ((∀ r ∈ df, r.event_id.isSome) →
      sumCounts (event_summary df) = countTotal df) := by
  have h : sumCounts (event_summary df) = df.countP (fun r => r.event_id.isSome) := by
    rw [event_summary, sumCounts_sortDesc, sumCounts_groupBySize]
  refine ⟨h, fun hall => ?_⟩
  rw [h, countTotal, List.countP_eq_length]
  exact hall

/-- Witness for C5 (amended): on the sample dataset, where every `event_id`
is present, the eventSummary counts sum to countTotal. -/
theorem C5_event_sum_witness :
    sumCounts (event_summary sampleDf) = countTotal sampleDf :=
  (C5_event_sum sampleDf).2 (by decide)

/-- Counterexample to C6 as stated: with today = 1, a date view holding one
row dated 8 — outside the window from today-6 through today — still yields
that date in `daily_7`, because the code bounds the window below but not
above. -/
theorem C6_daily_counterexample :
    sampleTimeRow8.date = 8 ∧
    daily_7 1 [sampleTimeRow8] = [(8, 1)] ∧
    ¬((8 : Int) ≤ 1) := by decide

/-- C6 (amended): `daily_7` returns the per-date counts of exactly those
rows of the date view whose date is at least today - 6 (no upper bound at
today is enforced), listing only dates with at least one matching row, each
with its exact positive count, in strictly increasing date order. -/
theorem C6_daily_window (today : Int) (dft : List TimeRow) :
    (∀ p ∈ daily_7 today dft,
      today - 6 ≤ p.1 ∧
      p.2 = dft.countP (fun t => decide (t.date = p.1)) ∧ 0 < p.2) ∧
    (∀ t ∈ dft, today - 6 ≤ t.date →
      (t.date, dft.countP (fun x => decide (x.date = t.date))) ∈ daily_7 today dft) ∧
    List.Pairwise (fun p q : Int × Nat => p.1 < q.1) (daily_7 today dft) := by
  have hcnt : ∀ key : Int, today - 6 ≤ key →
      (dft.filter (fun t => decide (today - 6 ≤ t.date))).countP
          (fun x => decide (some x.date = some key))
        = dft.countP (fun x => decide (x.date = key)) := by
    intro key hkey
    rw [List.countP_filter]
    apply List.countP_congr
    intro a ha
    by_cases hd : a.date = key
    · simp [hd, hkey]
    · simp [hd]
  refine ⟨?_, ?_, ?_⟩
  · rintro ⟨key, n⟩ hp
    rw [daily_7] at hp
    rcases (mem_groupBySize _ _ _ _).mp hp with ⟨⟨t, ht, hft⟩, rfl⟩
    rcases List.mem_filter.mp ht with ⟨htd, hwin⟩
    have hkey : today - 6 ≤ key := by
      have : t.date = key := by simpa using hft
      have hw : today - 6 ≤ t.date := by simpa using hwin
      omega
    refine ⟨hkey, hcnt key hkey, ?_⟩
    rw [hcnt key hkey]
    exact List.countP_pos_iff.mpr ⟨t, htd, by simpa using hft⟩
  · intro t ht hwin
    have htf : t ∈ dft.filter (fun x => decide (today - 6 ≤ x.date)) :=
      List.mem_filter.mpr ⟨ht, by simpa using hwin⟩
    have := groupBySize_complete (fun x : TimeRow => some x.date)
      (dft.filter (fun x => decide (today - 6 ≤ x.date))) t t.date htf rfl
    rw [daily_7, ← hcnt t.date hwin]
    exact this
  · exact groupBySize_sorted _ _

/-- Witness for C6 (amended) on the sample dataset with today = 5: the date
5 appears with its exact count 2, and the trend is sorted by date. -/
theorem C6_daily_window_witness :
    (5, 2) ∈ daily_7 5 (toTime sampleDf) ∧
    List.Pairwise (fun p q : Int × Nat => p.1 < q.1) (daily_7 5 (toTime sampleDf)) := by
  constructor
  · have h := (C6_daily_window 5 (toTime sampleDf)).2.1
      ⟨sampleRow1, 5, 1⟩ (by decide) (by decide)
    exact h
  · exact (C6_daily_window 5 (toTime sampleDf)).2.2

/-- C10: every grouped aggregation excludes the rows whose grouping key is
missing: the counts of each summary sum to the number of rows of its view
carrying a present grouping key (for the date-derived groupings the key is
always present, so the counts sum to the whole view). -/
theorem C10_groupby_missing_keys (df : List Row) (dft : List TimeRow)
    (today : Int) :
    sumCounts (user_summary df) = df.countP (fun r => r.username.isSome) ∧
    sumCounts (event_summary df) = df.countP (fun r => r.event_id.isSome) ∧
    sumCounts (geo_summary df)
      = df.countP (fun r => r.region_name.isSome && r.woreda_name.isSome) ∧
    sumCounts (daily_user dft) = dft.countP (fun t => t.row.username.isSome) ∧
    sumCounts (monthly_trend dft) = dft.length ∧
    sumCounts (daily_7 today dft)
      = (dft.filter (fun t => decide (today - 6 ≤ t.date))).length := by
  refine ⟨?_, ?_, ?_, ?_, ?_, ?_⟩
  · rw [user_summary, sumCounts_sortDesc, sumCounts_groupBySize]
  · rw [event_summary, sumCounts_sortDesc, sumCounts_groupBySize]
  · rw [geo_summary, sumCounts_groupBySize]
    apply List.countP_congr
    intro a ha
    cases h1 : a.region_name <;> cases h2 : a.woreda_name <;> simp
  · rw [daily_user, sumCounts_groupBySize]
    apply List.countP_congr
    intro a ha
    cases h1 : a.row.username <;> simp
  · rw [monthly_trend, sumCounts_groupBySize]
    simp
  · rw [daily_7, sumCounts_groupBySize]
    simp
